import Mathlib

/-!
# Verification model of the dataset-cleaning-agent repository

Shallow embedding of the orchestration core of the repository:

* `src/agent/nodes.py`   — stage functions, the module-global retry counter,
  the code extractor `_extract_code`, and the sandboxed executor `execute_code`;
* `src/agent/graph.py`   — the LangGraph wiring: the shared `GraphState`,
  the node adapters, the conditional router `route_after_execute`, and
  `build_graph` (which calls `reset_retries`);
* `src/agent/state.py`   — the per-stage Pydantic records;
* `src/app.py` / `src/main.py` — the two drivers; in particular the UI's
  `agent_nodes.MAX_RETRIES = max_retries` override (app.py line 252).

Characters and strings are modelled over `List Char`; Python machine-level
details (pandas statistics, prompt text) that no claim touches are abstracted
and documented at their definition site.
-/

namespace DCA

/-! ## Whitespace and `str.strip()`

Python `\s` (ASCII) and `str.strip()` with no argument both use the
whitespace set space, tab, newline, carriage return, vertical tab, form feed.
The oracle text handled by the repository is modelled over this ASCII set.
-/

def isSpace (c : Char) : Bool :=
  c = ' ' || c = '\t' || c = '\n' || c = '\r' || c = '\x0b' || c = '\x0c'

/-- Leading-whitespace removal (the left half of Python `str.strip()`). -/
def lstrip (l : List Char) : List Char := l.dropWhile isSpace

/-- Trailing-whitespace removal (the right half of Python `str.strip()`). -/
def rstrip (l : List Char) : List Char := (l.reverse.dropWhile isSpace).reverse

/-- Python `str.strip()`. -/
def pstrip (l : List Char) : List Char := rstrip (lstrip l)

/-! ## The code extractor (`_extract_code`, nodes.py lines 191-200)

```python
match = re.search(r"```(?:python)?\s*\n(.*?)```", text, re.DOTALL)
if match:
    return match.group(1).strip()
return re.sub(r"```(?:python)?", "", text).strip()
```

The regex is embedded by a direct implementation of its backtracking
semantics: the search tries each start position from the left; at a start,
`` ``` `` must match, then `(?:python)?` (greedy, and since `p` is not
whitespace the optional branch succeeds exactly when the literal `python`
follows), then `\s*\n` (greedy with backtracking: it consumes the maximal
whitespace run up to and including the *last* newline inside that run),
then the lazy group `(.*?)` runs to the *first* following `` ``` ``.
-/

/-- The three-backtick fence delimiter. -/
def ticks3 : List Char := ['`', '`', '`']

/-- Suffix after the last `'\n'` of a list; `none` when no newline occurs.
Used for the backtracking of greedy `\s*` followed by a mandatory `\n`. -/
def afterLastNL : List Char → Option (List Char)
  | [] => none
  | c :: rest =>
    match afterLastNL rest with
    | some r => some r
    | none => if c = '\n' then some rest else none

/-- Match `\s*\n` at the head of `l` (greedy `\s*`, backtracking into the
mandatory `\n`): consume the maximal whitespace run through its last
newline, returning the remainder; `none` when the run has no newline. -/
def consumeWsNL (l : List Char) : Option (List Char) :=
  (afterLastNL (l.takeWhile isSpace)).map
    (· ++ l.drop (l.takeWhile isSpace).length)

/-- Match ``· ``(?:python)?\s*\n`` at the head of `l`; returns the remainder
(where the lazy group starts). The `none => consumeWsNL rest` arm is the
regex backtracking step that retries without the optional `python` (it
always fails there, since `'p'` is not whitespace). -/
def tryOpen : List Char → Option (List Char)
  | '`' :: '`' :: '`' :: 'p' :: 'y' :: 't' :: 'h' :: 'o' :: 'n' :: rest =>
    (match consumeWsNL rest with
     | some r => some r
     | none => consumeWsNL ('p' :: 'y' :: 't' :: 'h' :: 'o' :: 'n' :: rest))
  | '`' :: '`' :: '`' :: rest => consumeWsNL rest
  | _ => none

/-- The lazy group `(.*?)` up to the first closing `` ``` ``: the prefix of
`l` strictly before its first triple-backtick occurrence; `none` when `l`
has none (the match at this start position fails). -/
def takeUntilTicks : List Char → Option (List Char)
  | '`' :: '`' :: '`' :: _ => some []
  | c :: rest => (takeUntilTicks rest).map (c :: ·)
  | [] => none

/-- `re.search` of the fence pattern: leftmost start position at which the
opening fence matches and a closing `` ``` `` follows; returns `group(1)`. -/
def fenceSearch : List Char → Option (List Char)
  | [] => none
  | c :: rest =>
    match tryOpen (c :: rest) with
    | some afterOpen =>
      (match takeUntilTicks afterOpen with
       | some grp => some grp
       | none => fenceSearch rest)
    | none => fenceSearch rest

/-- `re.sub(r"```(?:python)?", "", text)`: left-to-right scan deleting each
occurrence of `` ``` `` together with an immediately following `python`. -/
def subFences : List Char → List Char
  | '`' :: '`' :: '`' :: 'p' :: 'y' :: 't' :: 'h' :: 'o' :: 'n' :: rest => subFences rest
  | '`' :: '`' :: '`' :: rest => subFences rest
  | c :: rest => c :: subFences rest
  | [] => []

/-- `_extract_code` (nodes.py lines 191-200) over character lists. -/
def extractL (t : List Char) : List Char :=
  match fenceSearch t with
  | some grp => pstrip grp
  | none => pstrip (subFences t)

/-- `_extract_code` at the `String` interface. -/
def extract_code (s : String) : String := ⟨extractL s.data⟩

/-- Wrapping a code text once in a markdown ```` ```python ```` fence, as the
spec's `extract_wrapped` does (spec section 8, extractor idempotence). -/
def wrapFence (s : String) : String := "```python\n" ++ s ++ "\n```"

/-! ## Python exceptions and the sandboxed executor (nodes.py lines 98-121) -/

/-- The exceptions relevant to the executor boundary.  `exc msg` stands for
any exception class deriving from Python's `Exception`; `SystemExit` and
`KeyboardInterrupt` derive only from `BaseException`. -/
inductive PyExc where
  | exc (msg : String)
  | systemExit
  | keyboardInterrupt
deriving DecidableEq

/-- Whether the exception class derives from `Exception` — the test the
`except Exception:` clause at nodes.py line 118 performs. -/
def PyExc.derivesException : PyExc → Bool
  | .exc _ => true
  | .systemExit => false
  | .keyboardInterrupt => false

/-- `traceback.format_exc()` for a caught exception: the full diagnostic
text (exception type, message and stack trace rendering). -/
def PyExc.tracebackText : PyExc → String
  | .exc msg => "Traceback (most recent call last): " ++ msg
  | .systemExit => "SystemExit"
  | .keyboardInterrupt => "KeyboardInterrupt"

/-! ## The per-stage records (state.py) -/

structure Input where
  raw_csv_path : String
deriving DecidableEq

structure Inspect where
  data_profile : String
deriving DecidableEq

structure Plan where
  cleaning_plan : String
deriving DecidableEq

structure GenerateCode where
  generated_code : String
deriving DecidableEq

/-- `error = None` means success; on success `cleaned_csv_path` is set. -/
structure ExecuteCode where
  error : Option String := none
  cleaned_csv_path : Option String := none
deriving DecidableEq

structure FeatureEngineering where
  feature_engineering_plan : String
deriving DecidableEq

structure Debug where
  generated_code : String
deriving DecidableEq

/-! ## The exec namespace (nodes.py lines 107-114)

```python
namespace = {"pd": pd, "input_csv_path": input_csv_path, "output_csv_path": output_csv_path}
exec(state.generated_code, namespace)
```

CPython documents that when `exec` receives a globals dict with no
`__builtins__` key — as here — a reference to the `builtins` module is
inserted into it before execution, so every builtin, including the import
hook `__import__`, is reachable from the generated code.
-/

/-- A statement of the generated program, at the granularity the executor
claims need: evaluating a name, an `import` statement (which resolves the
`__import__` hook from the namespace), or raising an exception. -/
inductive Stmt where
  | useName (n : String)
  | importModule (m : String)
  | raiseExc (e : PyExc)
deriving DecidableEq

/-- The bindings `execute_code` injects (nodes.py lines 107-111). -/
def injectedNames : List String := ["pd", "input_csv_path", "output_csv_path"]

/-- A sample of the CPython `builtins` namespace (always including
the hook `__import__` that the import statement calls). -/
def builtinNames : List String :=
  ["__import__", "print", "len", "open", "range", "exit", "abs", "min", "max", "sum"]

/-- The names visible to the generated code inside `exec`: the injected
bindings plus the auto-inserted builtins. -/
def execNamespaceNames : List String := injectedNames ++ builtinNames

/-- Run a generated program in the exec namespace: `none` on normal
completion, `some e` when it raises `e`.  An unbound name raises
`NameError`; an `import` statement succeeds whenever `__import__` is
reachable. -/
def runProgram : List Stmt → Option PyExc
  | [] => none
  | .useName n :: rest =>
    if n ∈ execNamespaceNames then runProgram rest
    else some (.exc ("NameError: name " ++ n ++ " is not defined"))
  | .importModule _ :: rest =>
    if "__import__" ∈ execNamespaceNames then runProgram rest
    else some (.exc "ImportError: __import__ not found")
  | .raiseExc e :: _ => some e

/-- `execute_code` (nodes.py lines 98-121).  `outcome` is the behaviour of
`exec(state.generated_code, namespace)` on this attempt: `none` when the
generated code ran to completion, `some e` when it raised `e`.  The
`except Exception:` clause at line 118 catches exactly the exceptions
deriving from `Exception`; anything else propagates to the caller. -/
def execute_code (outcome : Option PyExc) (input_csv_path output_csv_path : String) :
    Except PyExc ExecuteCode :=
  match outcome with
  | none => .ok { error := none, cleaned_csv_path := some output_csv_path }
  | some e =>
    if e.derivesException then
      .ok { error := some e.tracebackText, cleaned_csv_path := none }
    else
      .error e

/-- `execute_code` applied to a concrete generated program via the exec
namespace semantics. -/
def execute_code_on (prog : List Stmt) (input_csv_path output_csv_path : String) :
    Except PyExc ExecuteCode :=
  execute_code (runProgram prog) input_csv_path output_csv_path

/-! ## The other stage functions (nodes.py) -/

/-- Python `str.strip()` at the `String` interface. -/
def pstripS (s : String) : String := ⟨pstrip s.data⟩

/-- The rendered dataset profile.  The pandas statistics computed in
`inspect_dataset` (nodes.py lines 25-52: shape, dtypes, missing
percentages, describe) are out of the claims' scope; the model keeps the
rendering abstract as a function of the file content. -/
def profileText (csvContent : String) : String :=
  "Dataset Profile: " ++ csvContent

/-- `inspect_dataset` (nodes.py lines 22-53): `pd.read_csv` raises when the
source file is missing (nothing catches it); otherwise the profile record
is produced. -/
def inspect_dataset (fs : String → Option String) (st : Input) :
    Except PyExc Inspect :=
  match fs st.raw_csv_path with
  | none => .error (.exc ("FileNotFoundError: " ++ st.raw_csv_path))
  | some content => .ok { data_profile := profileText content }

/-- `plan_cleaning` (nodes.py lines 57-73): the stripped oracle response.
Prompt text is out of scope (spec section 1); the response is supplied by
the run environment. -/
def plan_cleaning (response : String) : Plan :=
  { cleaning_plan := pstripS response }

/-- `generate_code` (nodes.py lines 77-94): the generated code is exactly
the extractor's output on the oracle response. -/
def generate_code (response : String) : GenerateCode :=
  { generated_code := extract_code response }

/-- `debug_code` (nodes.py lines 125-154): increments the module-global
retry counter, then returns the extractor's output on the repair
response. -/
def debug_code (retry_count : Nat) (response : String) : Nat × Debug :=
  (retry_count + 1, { generated_code := extract_code response })

/-- The `df = pd.read_csv(state.cleaned_csv_path)` step of the feature
stage (nodes.py line 163): raises `FileNotFoundError` on a missing file and
`ValueError` on a `None` path; caught nowhere. -/
def feature_read (fs : String → Option String) :
    Option String → Except PyExc String
  | none => .error (.exc "ValueError: Invalid file path or buffer object type")
  | some p =>
    match fs p with
    | none => .error (.exc ("FileNotFoundError: " ++ p))
    | some content => .ok content

/-- `feature_engineering_plan` (nodes.py lines 158-187): reads the cleaned
CSV back from disk, then asks the oracle; the read happens first, so a
missing artifact aborts the stage before any oracle call is made. -/
def feature_engineering_plan (fs : String → Option String) (st : ExecuteCode)
    (response : String) : Except PyExc FeatureEngineering :=
  match feature_read fs st.cleaned_csv_path with
  | .error e => .error e
  | .ok _ => .ok { feature_engineering_plan := pstripS response }

/-! ## Module-level state and the router (nodes.py lines 10-18, graph.py) -/

/-- The values the name `MAX_RETRIES` denotes in the two modules.
`graph.py` line 32 does `from .nodes import MAX_RETRIES`, which copies the
value into the graph module at import time; `app.py` line 252 rebinds the
attribute on the `nodes` module only (`agent_nodes.MAX_RETRIES =
max_retries`), leaving the graph module's copy untouched. -/
structure Modules where
  nodes_MAX_RETRIES : Nat
  graph_MAX_RETRIES : Nat
deriving DecidableEq

/-- Both modules right after import: both names denote 3 (nodes.py
line 13). -/
def importedModules : Modules :=
  { nodes_MAX_RETRIES := 3, graph_MAX_RETRIES := 3 }

/-- `agent_nodes.MAX_RETRIES = n` (app.py line 252): how the UI slider
configures the retry maximum. -/
def setNodesMaxRetries (m : Modules) (n : Nat) : Modules :=
  { m with nodes_MAX_RETRIES := n }

/-- The module-global retry counter of nodes.py (lines 10-13); it survives
across graph builds within one process. -/
structure ProcState where
  retry_count : Nat
deriving DecidableEq

/-- `reset_retries` (nodes.py lines 16-18), called by `build_graph`
(graph.py line 123). -/
def reset_retries (_p : ProcState) : ProcState := { retry_count := 0 }

inductive Route where
  | feature_eng
  | debug
  | endGraph
deriving DecidableEq

/-- `route_after_execute` (graph.py lines 107-117): reads the state's
`error`, the live `nodes.retry_count`, and the *graph module's*
`MAX_RETRIES` — the import-time copy. -/
def route_after_execute (m : Modules) (retry_count : Nat)
    (error : Option String) : Route :=
  if error = none then .feature_eng
  else if retry_count < m.graph_MAX_RETRIES then .debug
  else .endGraph

/-! ## The orchestrator (graph.py, main.py, app.py) -/

/-- The shared LangGraph state (graph.py lines 41-58); `data_profile` is
the profile record (a dict in the source), kept as its rendered text. -/
structure GraphState where
  raw_csv_path : String
  output_csv_path : String
  data_profile : String
  cleaning_plan : String
  generated_code : String
  error : Option String
  cleaned_csv_path : Option String
  feature_engineering_plan : String
deriving DecidableEq

/-- The initial state dict passed to `graph.invoke` (main.py lines 28-37)
and `graph.stream` (app.py lines 276-285). -/
def initialGraphState (input output : String) : GraphState :=
  { raw_csv_path := input
    output_csv_path := output
    data_profile := ""
    cleaning_plan := ""
    generated_code := ""
    error := none
    cleaned_csv_path := none
    feature_engineering_plan := "" }

inductive NodeName where
  | inspect
  | plan
  | generate_code
  | execute_code
  | debug
  | feature_eng
deriving DecidableEq

/-- One run's environment: the oracle responses by call index, the
behaviour of `exec` on each execution attempt (`none` = the generated code
ran to completion), and the file contents `pd.read_csv` finds.  Indexing
the oracle by call count and the executor by attempt count abstracts over
the prompt and code texts: any behaviour of the real collaborators is some
environment. -/
structure Env where
  llm : Nat → String
  execBehaviour : Nat → Option PyExc
  fs : String → Option String

/-- Everything a finished (or aborted) run exposes: the LangGraph result
(`Except.error e` = a stage raised `e` and it propagated out of the graph),
the sequence of node invocations, the final module-global retry counter,
and the number of oracle calls made. -/
structure RunResult where
  result : Except PyExc GraphState
  trace : List NodeName
  proc : ProcState
  llmCalls : Nat

/-- The `execute_code ⇄ debug` cycle of the graph (graph.py lines 141-153)
driven from one execution attempt.  `gas` is an upper bound on the
remaining loop iterations, used only to phrase the recursion structurally;
`invokeGraph` supplies `graph_MAX_RETRIES + 1`, which the router's bound
makes sufficient (the `gas = 0` branch is unreachable from there — see the
termination theorems).  `rc` is the module-global retry counter, `llmIdx`
the oracle call counter, `attempt` the execution attempt counter. -/
def execLoop (env : Env) (m : Modules) :
    Nat → GraphState → Nat → Nat → Nat →
      Except PyExc GraphState × List NodeName × Nat × Nat
  | 0, st, rc, llmIdx, _attempt => (.ok st, [], rc, llmIdx)
  | gas + 1, st, rc, llmIdx, attempt =>
    match execute_code (env.execBehaviour attempt) st.raw_csv_path
        st.output_csv_path with
    | .error e => (.error e, [.execute_code], rc, llmIdx)
    | .ok res =>
      match route_after_execute m rc res.error with
      | .feature_eng =>
        match feature_engineering_plan env.fs
            { cleaned_csv_path := res.cleaned_csv_path } (env.llm llmIdx) with
        | .error e => (.error e, [.execute_code, .feature_eng], rc, llmIdx)
        | .ok fe =>
          (.ok { st with
              error := res.error
              cleaned_csv_path := res.cleaned_csv_path
              feature_engineering_plan := fe.feature_engineering_plan },
            [.execute_code, .feature_eng], rc, llmIdx + 1)
      | .debug =>
        let stepped := debug_code rc (env.llm llmIdx)
        let next := execLoop env m gas
          { st with
              error := res.error
              cleaned_csv_path := res.cleaned_csv_path
              generated_code := stepped.2.generated_code }
          stepped.1 (llmIdx + 1) (attempt + 1)
        (next.1, .execute_code :: .debug :: next.2.1, next.2.2)
      | .endGraph =>
        (.ok { st with
            error := res.error
            cleaned_csv_path := res.cleaned_csv_path },
          [.execute_code], rc, llmIdx)

/-- `graph.invoke` on a compiled graph: the linear prefix
`inspect → plan → generate_code` (graph.py lines 136-139) followed by the
conditional loop.  `proc` is the module-global retry counter at invocation
time; the `plan` and `generate_code` stages make oracle calls 0 and 1. -/
def invokeGraph (env : Env) (m : Modules) (proc : ProcState)
    (input output : String) : RunResult :=
  match inspect_dataset env.fs { raw_csv_path := input } with
  | .error e =>
    { result := .error e, trace := [.inspect], proc := proc, llmCalls := 0 }
  | .ok insp =>
    let st0 := { initialGraphState input output with
      data_profile := insp.data_profile }
    let st1 := { st0 with cleaning_plan := (plan_cleaning (env.llm 0)).cleaning_plan }
    let st2 := { st1 with generated_code := (generate_code (env.llm 1)).generated_code }
    let r := execLoop env m (m.graph_MAX_RETRIES + 1) st2 proc.retry_count 2 0
    { result := r.1
      trace := .inspect :: .plan :: .generate_code :: r.2.1
      proc := { retry_count := r.2.2.1 }
      llmCalls := r.2.2.2 }

/-- One pipeline run as both drivers perform it: `build_graph()` — which
calls `reset_retries()` (graph.py line 123) — followed by a single
invocation (main.py line 28, app.py line 276). -/
def build_and_invoke (env : Env) (m : Modules) (proc : ProcState)
    (input output : String) : RunResult :=
  invokeGraph env m (reset_retries proc) input output

deriving instance DecidableEq for Except

/-! ## Example environments used by the concrete check theorems -/

/-- An environment in which every execution attempt raises an exception. -/
def envAllFail : Env :=
  { llm := fun _ => "resp"
    execBehaviour := fun _ => some (.exc "boom")
    fs := fun _ => some "a,b\n1,2" }

/-- An environment in which execution succeeds and the artifact exists. -/
def envOkRun : Env :=
  { llm := fun _ => "resp"
    execBehaviour := fun _ => none
    fs := fun _ => some "a,b\n1,2" }

/-- An environment in which execution reports success but never writes the
artifact: only the source file exists on disk. -/
def envGhost : Env :=
  { llm := fun _ => "resp"
    execBehaviour := fun _ => none
    fs := fun p => if p = "in.csv" then some "a,b\n1,2" else none }

-- Sanity checks of the embedding against the Python behaviour.
example : extract_code "```python\nx\n```" = "x" := by decide
example : extract_code (wrapFence (wrapFence "x")) = "" := by decide
example : extract_code "```python\n```" = "" := by decide
example : extract_code "``` \t\n  code```" = "code" := by decide
example : extract_code "```pythonX\ncode```" = "X\ncode" := by decide
example : extract_code "```python\nabc" = "abc" := by decide
example : extract_code "`` ```python `" = "``  `" := by decide

/-! ## Extractor lemmas

The development below establishes the two facts about `_extract_code` that
settle the extractor claims: it is idempotent on arbitrary text, and it
undoes a single fence wrap of fence-free code.  The backbone is that every
output of the extractor is free of the `` ``` `` delimiter.
-/

theorem ticks3_prefix_cons {c : Char} {rest : List Char} :
    ticks3 <+: c :: rest ↔ '`' = c ∧ ['`', '`'] <+: rest := by
  simp [ticks3, List.cons_prefix_cons]

theorem not_tick1_cons {c : Char} {l : List Char} (h : c ≠ '`') :
    ¬ ['`'] <+: c :: l := by
  simp [List.cons_prefix_cons]
  intro h'
  exact h h'.symm

/-- Unfolding of `subFences` on a cons cell that is not a fence start. -/
theorem subFences_cons_of_not_ticks {c : Char} {rest : List Char}
    (h : ¬ ticks3 <+: c :: rest) : subFences (c :: rest) = c :: subFences rest := by
  refine subFences.eq_3 c rest ?_ ?_
  · intro r hc hr
    exact h (ticks3_prefix_cons.mpr ⟨hc.symm, by rw [hr]; exact ⟨_, rfl⟩⟩)
  · intro r hc hr
    exact h (ticks3_prefix_cons.mpr ⟨hc.symm, by rw [hr]; exact ⟨_, rfl⟩⟩)

theorem subFences_not_tick1 {l : List Char} (h : ¬ ['`'] <+: l) :
    ¬ ['`'] <+: subFences l := by
  match l with
  | [] => simpa [subFences] using h
  | c :: rest =>
    have hc : c ≠ '`' := by
      intro hc; subst hc
      exact h ⟨rest, rfl⟩
    rw [subFences_cons_of_not_ticks (fun hp => hc (ticks3_prefix_cons.mp hp).1.symm)]
    exact not_tick1_cons hc

theorem subFences_not_tick2 {l : List Char} (h : ¬ ['`', '`'] <+: l) :
    ¬ ['`', '`'] <+: subFences l := by
  match l with
  | [] => simpa [subFences] using h
  | c :: rest =>
    by_cases hc : c = '`'
    · subst hc
      have h2 : ¬ ['`'] <+: rest := by
        intro ⟨t, ht⟩
        exact h ⟨t, by rw [← ht]; rfl⟩
      have h3 : ¬ ticks3 <+: '`' :: rest := by
        intro hp
        rcases (ticks3_prefix_cons.mp hp).2 with ⟨t, ht⟩
        exact h2 ⟨'`' :: t, by rw [← ht]; rfl⟩
      rw [subFences_cons_of_not_ticks h3]
      rw [List.cons_prefix_cons]
      rintro ⟨-, h4⟩
      exact subFences_not_tick1 h2 h4
    · rw [subFences_cons_of_not_ticks (fun hp => hc (ticks3_prefix_cons.mp hp).1.symm)]
      rw [List.cons_prefix_cons]
      rintro ⟨h4, -⟩
      exact hc h4.symm

/-- The output of the fallback `re.sub` contains no `` ``` `` delimiter:
a surviving triple would have had a removable match at its own position. -/
theorem subFences_no_ticks (l : List Char) : ¬ ticks3 <:+: subFences l := by
  induction l using subFences.induct with
  | case1 rest ih =>
    rw [subFences.eq_1]; exact ih
  | case2 rest h ih =>
    rw [subFences.eq_2 rest h]; exact ih
  | case3 c rest h1 h2 ih =>
    rw [subFences.eq_3 c rest h1 h2]
    rw [List.infix_cons_iff]
    rintro (hp | hi)
    · obtain ⟨hc, h4⟩ := ticks3_prefix_cons.mp hp
      subst hc
      have h5 : ¬ ['`', '`'] <+: rest := by
        intro ⟨t, ht⟩
        exact h2 t rfl ht.symm
      exact subFences_not_tick2 h5 h4
    · exact ih hi
  | case4 => simp [subFences, List.infix_nil, ticks3]

/-- On fence-free input the fallback `re.sub` is the identity. -/
theorem subFences_of_no_ticks {l : List Char} (h : ¬ ticks3 <:+: l) :
    subFences l = l := by
  induction l with
  | nil => rfl
  | cons c rest ih =>
    rw [subFences_cons_of_not_ticks (fun hp => h hp.isInfix)]
    rw [ih (fun hi => h (List.infix_cons_iff.mpr (Or.inr hi)))]

/-- Unfolding of the lazy group scan on a cons cell that is not a closing
fence start. -/
theorem takeUntilTicks_cons_of_not_ticks {c : Char} {rest : List Char}
    (h : ¬ ticks3 <+: c :: rest) :
    takeUntilTicks (c :: rest) = (takeUntilTicks rest).map (c :: ·) := by
  refine takeUntilTicks.eq_2 c rest ?_
  intro r hc hr
  exact h (ticks3_prefix_cons.mpr ⟨hc.symm, by rw [hr]; exact ⟨_, rfl⟩⟩)

theorem takeUntilTicks_not_tick1 {l g : List Char} (h : ¬ ['`'] <+: l)
    (hg : takeUntilTicks l = some g) : ¬ ['`'] <+: g := by
  match l with
  | [] => simp [takeUntilTicks] at hg
  | c :: rest =>
    have hc : c ≠ '`' := by
      intro hc; subst hc; exact h ⟨rest, rfl⟩
    rw [takeUntilTicks_cons_of_not_ticks
      (fun hp => hc (ticks3_prefix_cons.mp hp).1.symm)] at hg
    rcases Option.map_eq_some'.mp hg with ⟨g', -, hg'⟩
    subst hg'
    exact not_tick1_cons hc

theorem takeUntilTicks_not_tick2 {l g : List Char} (h : ¬ ['`', '`'] <+: l)
    (hg : takeUntilTicks l = some g) : ¬ ['`', '`'] <+: g := by
  match l with
  | [] => simp [takeUntilTicks] at hg
  | c :: rest =>
    by_cases hc : c = '`'
    · subst hc
      have h2 : ¬ ['`'] <+: rest := by
        intro ⟨t, ht⟩
        exact h ⟨t, by rw [← ht]; rfl⟩
      have h3 : ¬ ticks3 <+: '`' :: rest := by
        intro hp
        rcases (ticks3_prefix_cons.mp hp).2 with ⟨t, ht⟩
        exact h2 ⟨'`' :: t, by rw [← ht]; rfl⟩
      rw [takeUntilTicks_cons_of_not_ticks h3] at hg
      rcases Option.map_eq_some'.mp hg with ⟨g', hg', rfl⟩
      rw [List.cons_prefix_cons]
      rintro ⟨-, h4⟩
      exact takeUntilTicks_not_tick1 h2 hg' h4
    · rw [takeUntilTicks_cons_of_not_ticks
        (fun hp => hc (ticks3_prefix_cons.mp hp).1.symm)] at hg
      rcases Option.map_eq_some'.mp hg with ⟨g', -, rfl⟩
      rw [List.cons_prefix_cons]
      rintro ⟨h4, -⟩
      exact hc h4.symm

/-- The lazy group stops at the *first* closing fence, so its content is
fence-free. -/
theorem takeUntilTicks_no_ticks {l g : List Char}
    (hg : takeUntilTicks l = some g) : ¬ ticks3 <:+: g := by
  induction l using takeUntilTicks.induct generalizing g with
  | case1 rest =>
    rw [takeUntilTicks.eq_1] at hg
    cases hg
    simp [List.infix_nil, ticks3]
  | case2 c rest h ih =>
    have hnp : ¬ ticks3 <+: c :: rest := by
      intro hp
      obtain ⟨hc, t, ht⟩ := ticks3_prefix_cons.mp hp
      exact h t hc.symm ht.symm
    rw [takeUntilTicks_cons_of_not_ticks hnp] at hg
    rcases Option.map_eq_some'.mp hg with ⟨g', hg', rfl⟩
    rw [List.infix_cons_iff]
    rintro (hp | hi)
    · obtain ⟨hc, h4⟩ := ticks3_prefix_cons.mp hp
      subst hc
      have h5 : ¬ ['`', '`'] <+: rest := by
        intro ⟨t, ht⟩
        exact h t rfl ht.symm
      exact takeUntilTicks_not_tick2 h5 hg' h4
    · exact ih hg' hi
  | case3 => simp [takeUntilTicks] at hg

/-- An opening-fence match requires the `` ``` `` delimiter at its start. -/
theorem tryOpen_none_of_not_ticks {l : List Char} (h : ¬ ticks3 <+: l) :
    tryOpen l = none := by
  match l with
  | '`' :: '`' :: '`' :: rest => exact absurd ⟨rest, rfl⟩ h
  | [] => rfl
  | [c] =>
    rw [tryOpen.eq_def]
    split
    · rename_i heq; exact absurd heq (by simp)
    · rename_i heq; exact absurd heq (by simp)
    · rfl
  | [c, d] =>
    rw [tryOpen.eq_def]
    split
    · rename_i heq; exact absurd heq (by simp)
    · rename_i heq; exact absurd heq (by simp)
    · rfl
  | c :: d :: e :: rest =>
    have : ¬ (c = '`' ∧ d = '`' ∧ e = '`') := by
      rintro ⟨rfl, rfl, rfl⟩
      exact h ⟨rest, rfl⟩
    rw [tryOpen.eq_def]
    split
    · rename_i heq
      injection heq with h1 heq; injection heq with h2 heq; injection heq with h3 heq
      exact absurd ⟨h1, h2, h3⟩ this
    · rename_i heq
      injection heq with h1 heq; injection heq with h2 heq; injection heq with h3 heq
      exact absurd ⟨h1, h2, h3⟩ this
    · rfl

/-- The group returned by the fence search is fence-free. -/
theorem fenceSearch_no_ticks {l g : List Char}
    (hg : fenceSearch l = some g) : ¬ ticks3 <:+: g := by
  induction l generalizing g with
  | nil => simp [fenceSearch] at hg
  | cons c rest ih =>
    rw [fenceSearch] at hg
    cases hop : tryOpen (c :: rest) with
    | some afterOpen =>
      simp only [hop] at hg
      cases htu : takeUntilTicks afterOpen with
      | some grp =>
        simp only [htu, Option.some.injEq] at hg
        subst hg
        exact takeUntilTicks_no_ticks htu
      | none =>
        simp only [htu] at hg
        exact ih hg
    | none =>
      simp only [hop] at hg
      exact ih hg

/-- Fence-free text has no fence match. -/
theorem fenceSearch_none_of_no_ticks {l : List Char} (h : ¬ ticks3 <:+: l) :
    fenceSearch l = none := by
  induction l with
  | nil => rfl
  | cons c rest ih =>
    rw [fenceSearch]
    rw [tryOpen_none_of_not_ticks (fun hp => h hp.isInfix)]
    exact ih (fun hi => h (List.infix_cons_iff.mpr (Or.inr hi)))

/-! ### `str.strip()` lemmas -/

theorem lstrip_suffix (l : List Char) : lstrip l <:+ l :=
  List.dropWhile_suffix isSpace

theorem rstrip_front (l : List Char) : rstrip l <+: l := by
  have h := List.dropWhile_suffix (l := l.reverse) isSpace
  have := List.reverse_prefix.mpr h
  rwa [List.reverse_reverse] at this

theorem pstrip_part (l : List Char) : pstrip l <:+: l :=
  ((rstrip_front (lstrip l)).isInfix).trans ((lstrip_suffix l).isInfix)

theorem no_ticks_pstrip {l : List Char} (h : ¬ ticks3 <:+: l) :
    ¬ ticks3 <:+: pstrip l :=
  fun hi => h (hi.trans (pstrip_part l))

theorem dropWhile_sq_idem (l : List Char) :
    (l.dropWhile isSpace).dropWhile isSpace = l.dropWhile isSpace := by
  induction l with
  | nil => rfl
  | cons c rest ih =>
    rw [List.dropWhile_cons]
    by_cases hc : isSpace c
    · rw [if_pos hc]; exact ih
    · rw [if_neg hc, List.dropWhile_cons, if_neg hc]

theorem lstrip_idem (l : List Char) : lstrip (lstrip l) = lstrip l :=
  dropWhile_sq_idem l

theorem rstrip_idem (l : List Char) : rstrip (rstrip l) = rstrip l := by
  unfold rstrip
  rw [List.reverse_reverse, dropWhile_sq_idem]

theorem lstrip_head_not_space {c : Char} {rest l : List Char}
    (h : lstrip l = c :: rest) : isSpace c = false := by
  induction l with
  | nil => simp [lstrip, List.dropWhile] at h
  | cons d t ih =>
    rw [lstrip, List.dropWhile_cons] at h
    by_cases hd : isSpace d
    · rw [if_pos hd] at h
      exact ih h
    · rw [if_neg hd] at h
      injection h with h1 h2
      subst h1
      simpa using hd

theorem lstrip_rstrip_of_lstripped {l : List Char} (h : lstrip l = l) :
    lstrip (rstrip l) = rstrip l := by
  match hl : l with
  | [] => rfl
  | c :: rest =>
    have hc : isSpace c = false := lstrip_head_not_space h
    cases hr : rstrip (c :: rest) with
    | nil => rfl
    | cons d t =>
      have hd : d = c := by
        have := rstrip_front (c :: rest)
        rw [hr] at this
        exact (List.cons_prefix_cons.mp this).1
      subst hd
      rw [lstrip, List.dropWhile_cons, if_neg (by simp [hc])]

theorem pstrip_idem (l : List Char) : pstrip (pstrip l) = pstrip l := by
  unfold pstrip
  rw [lstrip_rstrip_of_lstripped (lstrip_idem l), rstrip_idem]

/-! ### Idempotence of the extractor -/

/-- Every extractor output is fence-free. -/
theorem extractL_no_ticks (t : List Char) : ¬ ticks3 <:+: extractL t := by
  unfold extractL
  cases h : fenceSearch t with
  | some g => exact no_ticks_pstrip (fenceSearch_no_ticks h)
  | none => exact no_ticks_pstrip (subFences_no_ticks t)

/-- Every extractor output is already stripped. -/
theorem extractL_pstrip (t : List Char) : pstrip (extractL t) = extractL t := by
  unfold extractL
  cases h : fenceSearch t with
  | some g => exact pstrip_idem g
  | none => exact pstrip_idem (subFences t)

/-- `_extract_code` is idempotent on arbitrary text: its output never
contains a fence delimiter, so re-extraction takes the fallback branch,
deletes nothing, and re-strips an already stripped text. -/
theorem extractL_idem (t : List Char) : extractL (extractL t) = extractL t := by
  have hnt := extractL_no_ticks t
  conv_lhs => rw [extractL]
  rw [fenceSearch_none_of_no_ticks hnt, subFences_of_no_ticks hnt, extractL_pstrip]

/-! ### Extraction of once-wrapped code -/

theorem takeWhile_append_all {p : Char → Bool} {a : List Char} (b : List Char)
    (ha : ∀ x ∈ a, p x = true) :
    List.takeWhile p (a ++ b) = a ++ List.takeWhile p b := by
  induction a with
  | nil => simp
  | cons c rest ih =>
    rw [List.cons_append, List.takeWhile_cons, if_pos (ha c (by simp)),
      ih (fun x hx => ha x (by simp [hx])), List.cons_append]

theorem dropWhile_append_all {p : Char → Bool} {a : List Char} (b : List Char)
    (ha : ∀ x ∈ a, p x = true) :
    List.dropWhile p (a ++ b) = List.dropWhile p b := by
  induction a with
  | nil => simp
  | cons c rest ih =>
    rw [List.cons_append, List.dropWhile_cons, if_pos (ha c (by simp))]
    exact ih (fun x hx => ha x (by simp [hx]))

theorem mem_takeWhile_sat {p : Char → Bool} {x : Char} {l : List Char}
    (h : x ∈ List.takeWhile p l) : p x = true := by
  induction l with
  | nil => simp [List.takeWhile] at h
  | cons c rest ih =>
    rw [List.takeWhile_cons] at h
    by_cases hc : p c
    · rw [if_pos hc] at h
      rcases List.mem_cons.mp h with rfl | h'
      · exact hc
      · exact ih h'
    · rw [if_neg hc] at h
      simp at h

theorem afterLastNL_suffix {l r : List Char} (h : afterLastNL l = some r) :
    r <:+ l := by
  induction l with
  | nil => simp [afterLastNL] at h
  | cons c rest ih =>
    rw [afterLastNL] at h
    cases han : afterLastNL rest with
    | some q =>
      simp only [han, Option.some.injEq] at h
      subst h
      exact (ih han).trans (List.suffix_cons c rest)
    | none =>
      simp only [han] at h
      by_cases hc : c = '\n'
      · rw [if_pos hc, Option.some.injEq] at h
        subst h
        exact List.suffix_cons c rest
      · rw [if_neg hc] at h
        cases h

theorem afterLastNL_append_nl (a : List Char) :
    afterLastNL (a ++ ['\n']) = some [] := by
  induction a with
  | nil => rfl
  | cons c rest ih =>
    rw [List.cons_append, afterLastNL, ih]

/-- Whitespace on the left cannot create a fence delimiter. -/
theorem no_ticks_space_append {a x : List Char}
    (ha : ∀ ch ∈ a, isSpace ch = true) (h : ¬ ticks3 <:+: x) :
    ¬ ticks3 <:+: a ++ x := by
  induction a with
  | nil => simpa using h
  | cons ch rest ih =>
    rw [List.cons_append, List.infix_cons_iff]
    rintro (hp | hi)
    · have hch := (ticks3_prefix_cons.mp hp).1
      have hsp := ha ch (by simp)
      rw [← hch] at hsp
      exact absurd hsp (by decide)
    · exact ih (fun d hd => ha d (by simp [hd])) hi

/-- The lazy group of a well-formed closing fence appended to fence-free
text is that text plus the newline before the closing fence. -/
theorem takeUntilTicks_append_close {x : List Char} (h : ¬ ticks3 <:+: x) :
    takeUntilTicks (x ++ '\n' :: ticks3) = some (x ++ ['\n']) := by
  induction x with
  | nil => rfl
  | cons ch rest ih =>
    have hnp : ¬ ticks3 <+: ch :: (rest ++ '\n' :: ticks3) := by
      intro hp
      obtain ⟨hc, h2⟩ := ticks3_prefix_cons.mp hp
      match rest, h2 with
      | [], h2 =>
        have := (List.cons_prefix_cons.mp h2).1
        exact absurd this (by decide)
      | [e], h2 =>
        obtain ⟨-, h3⟩ := List.cons_prefix_cons.mp h2
        have := (List.cons_prefix_cons.mp h3).1
        exact absurd this (by decide)
      | e :: f :: r, h2 =>
        obtain ⟨he, h3⟩ := List.cons_prefix_cons.mp h2
        obtain ⟨hf, -⟩ := List.cons_prefix_cons.mp h3
        exact h (List.IsPrefix.isInfix
          (ticks3_prefix_cons.mpr ⟨hc, by rw [← he, ← hf]; exact ⟨r, rfl⟩⟩))
    rw [List.cons_append, takeUntilTicks_cons_of_not_ticks hnp,
      ih (fun hi => h (List.infix_cons_iff.mpr (Or.inr hi)))]
    rfl

theorem fenceSearch_cons_open {c : Char} {rest afterOpen grp : List Char}
    (hop : tryOpen (c :: rest) = some afterOpen)
    (htu : takeUntilTicks afterOpen = some grp) :
    fenceSearch (c :: rest) = some grp := by
  rw [fenceSearch]
  simp only [hop, htu]

theorem rstrip_append_nl (l : List Char) : rstrip (l ++ ['\n']) = rstrip l := by
  unfold rstrip
  rw [List.reverse_append]
  simp [List.dropWhile_cons, isSpace]

/-- Unfolding of the extractor when the fence search succeeds. -/
theorem extractL_of_fenceSearch {t g : List Char} (hg : fenceSearch t = some g) :
    extractL t = pstrip g := by
  simp only [extractL, hg]

/-- Extraction undoes a single ```` ```python ```` wrap of fence-free code:
the opening fence consumes the newline plus any further leading whitespace
of the code through its last newline, the lazy group then runs to the
closing fence, and the final `strip` erases what is left of the code's
leading whitespace together with the newline before the closing fence. -/
theorem extractL_wrap_once {c : List Char} (h : ¬ ticks3 <:+: c) :
    extractL ('`' :: '`' :: '`' :: 'p' :: 'y' :: 't' :: 'h' :: 'o' :: 'n' :: '\n' ::
      (c ++ '\n' :: ticks3)) = extractL c := by
  have hrhs : extractL c = rstrip (List.dropWhile isSpace c) := by
    rw [extractL, fenceSearch_none_of_no_ticks h, subFences_of_no_ticks h]
    rfl
  have hws : ∀ x ∈ List.takeWhile isSpace c, isSpace x = true :=
    fun x hx => mem_takeWhile_sat hx
  cases hc0 : List.dropWhile isSpace c with
  | nil =>
    -- the code is pure whitespace: the opening fence swallows everything
    -- through the newline in front of the closing fence, the group is empty
    have hall : ∀ x ∈ c, isSpace x = true := List.dropWhile_eq_nil_iff.mp hc0
    have hwsl : List.takeWhile isSpace ('\n' :: (c ++ '\n' :: ticks3)) =
        '\n' :: (c ++ ['\n']) := by
      rw [List.takeWhile_cons, if_pos (by decide), takeWhile_append_all _ hall]
      have h4 : List.takeWhile isSpace ('\n' :: ticks3) = ['\n'] := by decide
      rw [h4]
    have hcons : consumeWsNL ('\n' :: (c ++ '\n' :: ticks3)) = some ticks3 := by
      unfold consumeWsNL
      rw [hwsl]
      have h1 : afterLastNL ('\n' :: (c ++ ['\n'])) = some [] := by
        have h2 := afterLastNL_append_nl ('\n' :: c)
        simpa using h2
      rw [h1]
      simp only [Option.map_some']
      have h3 : '\n' :: (c ++ '\n' :: ticks3) =
          ('\n' :: (c ++ ['\n'])) ++ ticks3 := by simp
      rw [h3, List.drop_left, List.nil_append]
    have hop : tryOpen ('`' :: '`' :: '`' :: 'p' :: 'y' :: 't' :: 'h' :: 'o' :: 'n' ::
        '\n' :: (c ++ '\n' :: ticks3)) = some ticks3 := by
      rw [tryOpen.eq_1, hcons]
    rw [extractL_of_fenceSearch (fenceSearch_cons_open hop (by rfl)), hrhs, hc0]
    rfl
  | cons d c1 =>
    have hd : isSpace d = false := lstrip_head_not_space (l := c) hc0
    have hsplit : c = List.takeWhile isSpace c ++ (d :: c1) := by
      conv_lhs => rw [← List.takeWhile_append_dropWhile isSpace c, hc0]
    have key : c ++ ('\n' :: ticks3) =
        List.takeWhile isSpace c ++ ((d :: c1) ++ ('\n' :: ticks3)) := by
      conv_lhs => rw [hsplit]
      rw [List.append_assoc]
    have hwsl : List.takeWhile isSpace ('\n' :: (c ++ '\n' :: ticks3)) =
        '\n' :: List.takeWhile isSpace c := by
      rw [List.takeWhile_cons, if_pos (by decide), key, takeWhile_append_all _ hws,
        List.cons_append, List.takeWhile_cons, if_neg (by simp [hd]), List.append_nil]
    obtain ⟨a, ha_eq, ha_suf⟩ :
        ∃ a, afterLastNL ('\n' :: List.takeWhile isSpace c) = some a ∧
          a <:+ List.takeWhile isSpace c := by
      cases han : afterLastNL (List.takeWhile isSpace c) with
      | some r =>
        exact ⟨r, by rw [afterLastNL, han], afterLastNL_suffix han⟩
      | none =>
        refine ⟨List.takeWhile isSpace c, ?_, List.suffix_rfl⟩
        rw [afterLastNL, han]
        simp
    have ha_ws : ∀ x ∈ a, isSpace x = true :=
      fun x hx => hws x (ha_suf.subset hx)
    have hcons : consumeWsNL ('\n' :: (c ++ '\n' :: ticks3)) =
        some (a ++ ((d :: c1) ++ ('\n' :: ticks3))) := by
      unfold consumeWsNL
      rw [hwsl, ha_eq]
      simp only [Option.map_some']
      have h2 : '\n' :: (c ++ '\n' :: ticks3) =
          ('\n' :: List.takeWhile isSpace c) ++ ((d :: c1) ++ ('\n' :: ticks3)) := by
        rw [key]
        rfl
      rw [h2, List.drop_left]
    have hnx : ¬ ticks3 <:+: (a ++ (d :: c1)) := by
      refine no_ticks_space_append ha_ws ?_
      intro hi
      refine h (hi.trans ?_)
      rw [← hc0]
      exact (List.dropWhile_suffix isSpace).isInfix
    have hop : tryOpen ('`' :: '`' :: '`' :: 'p' :: 'y' :: 't' :: 'h' :: 'o' :: 'n' ::
        '\n' :: (c ++ '\n' :: ticks3)) = some (a ++ ((d :: c1) ++ ('\n' :: ticks3))) := by
      rw [tryOpen.eq_1, hcons]
    have hgrp : fenceSearch ('`' :: '`' :: '`' :: 'p' :: 'y' :: 't' :: 'h' :: 'o' :: 'n' ::
        '\n' :: (c ++ '\n' :: ticks3)) = some ((a ++ (d :: c1)) ++ ['\n']) := by
      refine fenceSearch_cons_open hop ?_
      rw [← List.append_assoc]
      exact takeUntilTicks_append_close hnx
    rw [extractL_of_fenceSearch hgrp]
    unfold pstrip
    have hl : lstrip ((a ++ (d :: c1)) ++ ['\n']) = (d :: c1) ++ ['\n'] := by
      unfold lstrip
      rw [List.append_assoc, dropWhile_append_all _ ha_ws, List.cons_append,
        List.dropWhile_cons, if_neg (by simp [hd]), ← List.cons_append]
    rw [hl, rstrip_append_nl, hrhs, hc0]

/-! ## Loop invariants of the orchestrator -/

theorem route_eq_feature {m : Modules} {rc : Nat} {err : Option String}
    (h : route_after_execute m rc err = .feature_eng) : err = none := by
  unfold route_after_execute at h
  by_cases he : err = none
  · exact he
  · rw [if_neg he] at h
    by_cases hlt : rc < m.graph_MAX_RETRIES
    · rw [if_pos hlt] at h; cases h
    · rw [if_neg hlt] at h; cases h

theorem route_eq_debug {m : Modules} {rc : Nat} {err : Option String}
    (h : route_after_execute m rc err = .debug) :
    err ≠ none ∧ rc < m.graph_MAX_RETRIES := by
  unfold route_after_execute at h
  by_cases he : err = none
  · rw [if_pos he] at h; cases h
  · rw [if_neg he] at h
    by_cases hlt : rc < m.graph_MAX_RETRIES
    · exact ⟨he, hlt⟩
    · rw [if_neg hlt] at h; cases h

theorem route_eq_end {m : Modules} {rc : Nat} {err : Option String}
    (h : route_after_execute m rc err = .endGraph) :
    err ≠ none ∧ ¬ rc < m.graph_MAX_RETRIES := by
  unfold route_after_execute at h
  by_cases he : err = none
  · rw [if_pos he] at h; cases h
  · rw [if_neg he] at h
    by_cases hlt : rc < m.graph_MAX_RETRIES
    · rw [if_pos hlt] at h; cases h
    · exact ⟨he, hlt⟩

/-- Unfolding of one loop iteration whose execution attempt propagates. -/
theorem execLoop_step_err {env : Env} {m : Modules} {st : GraphState}
    {rc llmIdx attempt : Nat} {e : PyExc} (g : Nat)
    (hexec : execute_code (env.execBehaviour attempt) st.raw_csv_path
      st.output_csv_path = .error e) :
    execLoop env m (g + 1) st rc llmIdx attempt =
      (.error e, [.execute_code], rc, llmIdx) := by
  rw [execLoop, hexec]

/-- Unfolding of one loop iteration routed to the feature stage whose
artifact read fails. -/
theorem execLoop_step_feature_err {env : Env} {m : Modules} {st : GraphState}
    {rc llmIdx attempt : Nat} {res : ExecuteCode} {e : PyExc} (g : Nat)
    (hexec : execute_code (env.execBehaviour attempt) st.raw_csv_path
      st.output_csv_path = .ok res)
    (hroute : route_after_execute m rc res.error = .feature_eng)
    (hfe : feature_engineering_plan env.fs
      { cleaned_csv_path := res.cleaned_csv_path } (env.llm llmIdx) = .error e) :
    execLoop env m (g + 1) st rc llmIdx attempt =
      (.error e, [.execute_code, .feature_eng], rc, llmIdx) := by
  rw [execLoop, hexec]
  dsimp only
  rw [hroute]
  dsimp only
  rw [hfe]

/-- Unfolding of one loop iteration routed to the feature stage that
completes the run. -/
theorem execLoop_step_feature_ok {env : Env} {m : Modules} {st : GraphState}
    {rc llmIdx attempt : Nat} {res : ExecuteCode} {fe : FeatureEngineering} (g : Nat)
    (hexec : execute_code (env.execBehaviour attempt) st.raw_csv_path
      st.output_csv_path = .ok res)
    (hroute : route_after_execute m rc res.error = .feature_eng)
    (hfe : feature_engineering_plan env.fs
      { cleaned_csv_path := res.cleaned_csv_path } (env.llm llmIdx) = .ok fe) :
    execLoop env m (g + 1) st rc llmIdx attempt =
      (.ok { st with
          error := res.error
          cleaned_csv_path := res.cleaned_csv_path
          feature_engineering_plan := fe.feature_engineering_plan },
        [.execute_code, .feature_eng], rc, llmIdx + 1) := by
  rw [execLoop, hexec]
  dsimp only
  rw [hroute]
  dsimp only
  rw [hfe]

/-- Unfolding of one loop iteration routed to the repair stage. -/
theorem execLoop_step_debug {env : Env} {m : Modules} {st : GraphState}
    {rc llmIdx attempt : Nat} {res : ExecuteCode} (g : Nat) (stD : GraphState)
    (hexec : execute_code (env.execBehaviour attempt) st.raw_csv_path
      st.output_csv_path = .ok res)
    (hroute : route_after_execute m rc res.error = .debug)
    (hstD : stD = { st with
        error := res.error
        cleaned_csv_path := res.cleaned_csv_path
        generated_code := extract_code (env.llm llmIdx) }) :
    execLoop env m (g + 1) st rc llmIdx attempt =
      ((execLoop env m g stD (rc + 1) (llmIdx + 1) (attempt + 1)).1,
        .execute_code :: .debug ::
          (execLoop env m g stD (rc + 1) (llmIdx + 1) (attempt + 1)).2.1,
        (execLoop env m g stD (rc + 1) (llmIdx + 1) (attempt + 1)).2.2) := by
  subst hstD
  rw [execLoop, hexec]
  dsimp only
  rw [hroute]
  rfl

/-- Unfolding of one loop iteration routed to the terminal end. -/
theorem execLoop_step_end {env : Env} {m : Modules} {st : GraphState}
    {rc llmIdx attempt : Nat} {res : ExecuteCode} (g : Nat)
    (hexec : execute_code (env.execBehaviour attempt) st.raw_csv_path
      st.output_csv_path = .ok res)
    (hroute : route_after_execute m rc res.error = .endGraph) :
    execLoop env m (g + 1) st rc llmIdx attempt =
      (.ok { st with
          error := res.error
          cleaned_csv_path := res.cleaned_csv_path },
        [.execute_code], rc, llmIdx) := by
  rw [execLoop, hexec]
  dsimp only
  rw [hroute]

/-- The loop invariant of the `execute_code ⇄ debug` cycle: with the gas
budget exactly covering the retries the router still permits, the loop
performs at most `gas` executions, increments the retry counter once per
`debug` invocation, never drives it past the router's bound, and ends
either aborted, or successful with the feature stage reached, or failed
with the counter at the bound. -/
theorem execLoop_bounds (env : Env) (m : Modules) :
    ∀ gas st rc llmIdx attempt,
      rc + gas = m.graph_MAX_RETRIES + 1 → rc ≤ m.graph_MAX_RETRIES →
      (execLoop env m gas st rc llmIdx attempt).2.1.count NodeName.execute_code ≤ gas ∧
      (execLoop env m gas st rc llmIdx attempt).2.1.count NodeName.debug + rc =
        (execLoop env m gas st rc llmIdx attempt).2.2.1 ∧
      (execLoop env m gas st rc llmIdx attempt).2.2.1 ≤ m.graph_MAX_RETRIES ∧
      rc ≤ (execLoop env m gas st rc llmIdx attempt).2.2.1 ∧
      (match (execLoop env m gas st rc llmIdx attempt).1 with
       | .error _ => True
       | .ok f =>
         (f.error = none ∧ NodeName.feature_eng ∈ (execLoop env m gas st rc llmIdx attempt).2.1) ∨
         (f.error ≠ none ∧
           (execLoop env m gas st rc llmIdx attempt).2.2.1 = m.graph_MAX_RETRIES)) := by
  intro gas
  induction gas with
  | zero =>
    intro st rc llmIdx attempt h1 h2
    exact absurd h1 (by omega)
  | succ g ih =>
    intro st rc llmIdx attempt h1 h2
    cases hexec : execute_code (env.execBehaviour attempt) st.raw_csv_path
        st.output_csv_path with
    | error e =>
      rw [execLoop_step_err g hexec]
      exact ⟨by simp [List.count_cons], by simp [List.count_cons], h2, le_refl rc, trivial⟩
    | ok res =>
      cases hroute : route_after_execute m rc res.error with
      | feature_eng =>
        have herr := route_eq_feature hroute
        cases hfe : feature_engineering_plan env.fs
            { cleaned_csv_path := res.cleaned_csv_path } (env.llm llmIdx) with
        | error e =>
          rw [execLoop_step_feature_err g hexec hroute hfe]
          exact ⟨by simp [List.count_cons]; try omega, by simp [List.count_cons], h2,
            le_refl rc, trivial⟩
        | ok fe =>
          rw [execLoop_step_feature_ok g hexec hroute hfe]
          refine ⟨by simp [List.count_cons]; try omega, by simp [List.count_cons], h2,
            le_refl rc, ?_⟩
          exact Or.inl ⟨herr, by simp⟩
      | debug =>
        obtain ⟨herr, hlt⟩ := route_eq_debug hroute
        rw [execLoop_step_debug g _ hexec hroute rfl]
        dsimp only
        have h1r : (rc + 1) + g = m.graph_MAX_RETRIES + 1 := by omega
        have h2r : rc + 1 ≤ m.graph_MAX_RETRIES := by omega
        obtain ⟨iE, iD, iUb, iLb, iTerm⟩ :=
          ih { st with
                error := res.error
                cleaned_csv_path := res.cleaned_csv_path
                generated_code := extract_code (env.llm llmIdx) }
            (rc + 1) (llmIdx + 1) (attempt + 1) h1r h2r
        refine ⟨?_, ?_, iUb, by omega, ?_⟩
        · simp only [List.count_cons]
          simp
          omega
        · simp only [List.count_cons]
          simp
          omega
        · cases hres : (execLoop env m g
              { st with
                  error := res.error
                  cleaned_csv_path := res.cleaned_csv_path
                  generated_code := extract_code (env.llm llmIdx) }
              (rc + 1) (llmIdx + 1) (attempt + 1)).1 with
          | error e => exact trivial
          | ok f =>
            rw [hres] at iTerm
            rcases iTerm with ⟨hf, hmem⟩ | ⟨hf, hrcF⟩
            · exact Or.inl ⟨hf, by simp [hmem]⟩
            · exact Or.inr ⟨hf, hrcF⟩
      | endGraph =>
        obtain ⟨herr, hge⟩ := route_eq_end hroute
        rw [execLoop_step_end g hexec hroute]
        dsimp only
        refine ⟨by simp [List.count_cons], by simp [List.count_cons], h2, le_refl rc, ?_⟩
        exact Or.inr ⟨herr, by omega⟩

/-- Closed form of the loop when every attempt raises an `Exception`: the
loop burns all its gas, debugging once between consecutive attempts, ends
with the counter at the router's bound, and the final state carries the
traceback of the last attempt with no artifact path. -/
theorem execLoop_all_fail (env : Env) (m : Modules)
    (hfail : ∀ k, ∃ msg, env.execBehaviour k = some (.exc msg)) :
    ∀ gas st rc llmIdx attempt,
      rc + gas = m.graph_MAX_RETRIES + 1 → rc ≤ m.graph_MAX_RETRIES →
      (execLoop env m gas st rc llmIdx attempt).2.1.count NodeName.execute_code = gas ∧
      (execLoop env m gas st rc llmIdx attempt).2.1.count NodeName.debug = gas - 1 ∧
      (execLoop env m gas st rc llmIdx attempt).2.2.1 = m.graph_MAX_RETRIES ∧
      (execLoop env m gas st rc llmIdx attempt).1.map
          (fun f => (f.error, f.cleaned_csv_path)) =
        .ok (Option.map PyExc.tracebackText (env.execBehaviour (attempt + gas - 1)),
          none) := by
  intro gas
  induction gas with
  | zero =>
    intro st rc llmIdx attempt h1 h2
    exact absurd h1 (by omega)
  | succ g ih =>
    intro st rc llmIdx attempt h1 h2
    obtain ⟨msg, hmsg⟩ := hfail attempt
    have hexec : execute_code (env.execBehaviour attempt) st.raw_csv_path
        st.output_csv_path =
        .ok { error := some (PyExc.exc msg).tracebackText,
              cleaned_csv_path := none } := by
      rw [hmsg]
      rfl
    by_cases hlt : rc < m.graph_MAX_RETRIES
    · have hroute : route_after_execute m rc
          (({ error := some (PyExc.exc msg).tracebackText,
              cleaned_csv_path := none } : ExecuteCode)).error = .debug := by
        unfold route_after_execute
        rw [if_neg (by simp), if_pos hlt]
      rw [execLoop_step_debug g _ hexec hroute rfl]
      dsimp only
      have h1r : (rc + 1) + g = m.graph_MAX_RETRIES + 1 := by omega
      have h2r : rc + 1 ≤ m.graph_MAX_RETRIES := by omega
      have hg1 : 1 ≤ g := by omega
      obtain ⟨iE, iD, iRc, iRes⟩ :=
        ih { st with
              error := some (PyExc.exc msg).tracebackText
              cleaned_csv_path := none
              generated_code := extract_code (env.llm llmIdx) }
          (rc + 1) (llmIdx + 1) (attempt + 1) h1r h2r
      refine ⟨?_, ?_, iRc, ?_⟩
      · simp only [List.count_cons]
        simp
        omega
      · simp only [List.count_cons]
        simp
        omega
      · have hidx : attempt + 1 + g - 1 = attempt + (g + 1) - 1 := by omega
        rw [hidx] at iRes
        exact iRes
    · have hrc : rc = m.graph_MAX_RETRIES := by omega
      have hg0 : g = 0 := by omega
      have hroute : route_after_execute m rc
          (({ error := some (PyExc.exc msg).tracebackText,
              cleaned_csv_path := none } : ExecuteCode)).error = .endGraph := by
        unfold route_after_execute
        rw [if_neg (by simp), if_neg hlt]
      subst hg0
      rw [execLoop_step_end 0 hexec hroute]
      dsimp only
      refine ⟨by simp [List.count_cons], by simp [List.count_cons], hrc, ?_⟩
      rw [show attempt + (0 + 1) - 1 = attempt from by omega, hmsg]
      rfl

/-- Unfolding of a full run whose source file exists: the linear prefix
runs, then the loop starts with the counter reset to 0, gas
`graph_MAX_RETRIES + 1`, oracle call index 2 and attempt index 0. -/
theorem build_and_invoke_unfold {env : Env} {m : Modules} {p : ProcState}
    {input output content : String} (st2 : GraphState)
    (hsrc : env.fs input = some content)
    (hst2 : st2 = { raw_csv_path := input
                    output_csv_path := output
                    data_profile := profileText content
                    cleaning_plan := pstripS (env.llm 0)
                    generated_code := extract_code (env.llm 1)
                    error := none
                    cleaned_csv_path := none
                    feature_engineering_plan := "" }) :
    build_and_invoke env m p input output =
      { result := (execLoop env m (m.graph_MAX_RETRIES + 1) st2 0 2 0).1
        trace := .inspect :: .plan :: .generate_code ::
          (execLoop env m (m.graph_MAX_RETRIES + 1) st2 0 2 0).2.1
        proc := { retry_count :=
          (execLoop env m (m.graph_MAX_RETRIES + 1) st2 0 2 0).2.2.1 }
        llmCalls := (execLoop env m (m.graph_MAX_RETRIES + 1) st2 0 2 0).2.2.2 } := by
  subst hst2
  unfold build_and_invoke reset_retries invokeGraph
  simp only [inspect_dataset, hsrc]
  rfl

/-- Unfolding of a full run whose source file is missing: `pd.read_csv`
raises inside the inspect stage and the run aborts at once. -/
theorem build_and_invoke_nofile {env : Env} {m : Modules} {p : ProcState}
    {input output : String} (hsrc : env.fs input = none) :
    build_and_invoke env m p input output =
      { result := .error (.exc ("FileNotFoundError: " ++ input))
        trace := [.inspect]
        proc := { retry_count := 0 }
        llmCalls := 0 } := by
  unfold build_and_invoke reset_retries invokeGraph
  simp only [inspect_dataset, hsrc]

/-! ## Auxiliary facts for the generated-code claims -/

theorem mem_dropWhile_of_not {p : Char → Bool} {x : Char} {l : List Char}
    (hx : x ∈ l) (hpx : p x = false) : x ∈ l.dropWhile p := by
  induction l with
  | nil => cases hx
  | cons c rest ih =>
    rw [List.dropWhile_cons]
    by_cases hc : p c
    · rw [if_pos hc]
      rcases List.mem_cons.mp hx with rfl | h'
      · rw [hc] at hpx; cases hpx
      · exact ih h'
    · rw [if_neg hc]
      exact hx

/-- A text containing a non-whitespace character does not strip to the
empty text. -/
theorem pstrip_ne_nil {l : List Char} {x : Char} (hx : x ∈ l)
    (hpx : isSpace x = false) : pstrip l ≠ [] := by
  intro h0
  have h1 : x ∈ lstrip l := mem_dropWhile_of_not hx hpx
  have h2 : x ∈ (lstrip l).reverse := List.mem_reverse.mpr h1
  have h3 : x ∈ (lstrip l).reverse.dropWhile isSpace := mem_dropWhile_of_not h2 hpx
  have h4 : x ∈ pstrip l := by
    unfold pstrip rstrip
    exact List.mem_reverse.mpr h3
  rw [h0] at h4
  cases h4

/-! ## The claims -/

/-- C1 counterexample: a run whose retry maximum is configured to 1 through
the UI override (`agent_nodes.MAX_RETRIES = 1`) and whose every attempt
fails performs 4 executions — more than the claimed `N + 1 = 2` — because
the router keeps using the import-time bound 3. -/
theorem C1_counterexample :
    (build_and_invoke envAllFail (setNodesMaxRetries importedModules 1)
      { retry_count := 0 } "in.csv" "out.csv").trace.count
        NodeName.execute_code = 4 ∧
    (setNodesMaxRetries importedModules 1).nodes_MAX_RETRIES + 1 < 4 := by
  constructor
  · decide
  · decide

/-- C1 (amended): every run halts with at most `N + 1` executions and `N`
repairs, where `N` is the bound the router actually reads — the copy of
`MAX_RETRIES` graph.py took at import time, not an overridden attribute —
and, unless a stage raised an uncaught exception (which can happen, see
C10), it ends either successfully with the feature stage
reached, or failed with the retry counter exhausted at that bound. -/
theorem C1_amended_bounded_termination (env : Env) (m : Modules)
    (p : ProcState) (input output : String) :
    (build_and_invoke env m p input output).trace.count NodeName.execute_code ≤
      m.graph_MAX_RETRIES + 1 ∧
    (build_and_invoke env m p input output).trace.count NodeName.debug ≤
      m.graph_MAX_RETRIES ∧
    (match (build_and_invoke env m p input output).result with
     | .error _ => True
     | .ok f =>
       (f.error = none ∧
         NodeName.feature_eng ∈ (build_and_invoke env m p input output).trace) ∨
       (f.error ≠ none ∧
         (build_and_invoke env m p input output).proc.retry_count =
           m.graph_MAX_RETRIES)) := by
  cases hfs : env.fs input with
  | none =>
    rw [build_and_invoke_nofile hfs]
    exact ⟨by simp [List.count_cons], by simp [List.count_cons], trivial⟩
  | some content =>
    rw [build_and_invoke_unfold _ hfs rfl]
    obtain ⟨iE, iD, iUb, iLb, iTerm⟩ :=
      execLoop_bounds env m (m.graph_MAX_RETRIES + 1)
        { raw_csv_path := input
          output_csv_path := output
          data_profile := profileText content
          cleaning_plan := pstripS (env.llm 0)
          generated_code := extract_code (env.llm 1)
          error := none
          cleaned_csv_path := none
          feature_engineering_plan := "" }
        0 2 0 (by omega) (by omega)
    refine ⟨?_, ?_, ?_⟩
    · simp only [List.count_cons]
      simp
      omega
    · simp only [List.count_cons]
      simp
      omega
    · cases hres : (execLoop env m (m.graph_MAX_RETRIES + 1)
          { raw_csv_path := input
            output_csv_path := output
            data_profile := profileText content
            cleaning_plan := pstripS (env.llm 0)
            generated_code := extract_code (env.llm 1)
            error := none
            cleaned_csv_path := none
            feature_engineering_plan := "" }
          0 2 0).1 with
      | error e => exact trivial
      | ok f =>
        rw [hres] at iTerm
        rcases iTerm with ⟨hf, hmem⟩ | ⟨hf, hrcF⟩
        · exact Or.inl ⟨hf, by simp [hmem]⟩
        · exact Or.inr ⟨hf, hrcF⟩

/-- C2: with the default maximum 3, any run whose source file exists and
whose every execution attempt raises an `Exception` performs exactly 4
executions and 3 repairs, ends with the retry counter at 3 in the failed
terminal state (error present, no artifact), and the preserved diagnostic
is the traceback of the 4th attempt's exception, unmodified. -/
theorem C2_exhaustion_run (env : Env) (p : ProcState)
    (input output content : String)
    (hsrc : env.fs input = some content)
    (hfail : ∀ k, ∃ msg, env.execBehaviour k = some (.exc msg)) :
    (build_and_invoke env importedModules p input output).trace.count
      NodeName.execute_code = 4 ∧
    (build_and_invoke env importedModules p input output).trace.count
      NodeName.debug = 3 ∧
    (build_and_invoke env importedModules p input output).proc.retry_count = 3 ∧
    (build_and_invoke env importedModules p input output).result.map
        (fun f => (f.error, f.cleaned_csv_path)) =
      .ok (Option.map PyExc.tracebackText (env.execBehaviour 3), none) := by
  rw [build_and_invoke_unfold _ hsrc rfl]
  obtain ⟨iE, iD, iRc, iRes⟩ :=
    execLoop_all_fail env importedModules hfail
      (importedModules.graph_MAX_RETRIES + 1)
      { raw_csv_path := input
        output_csv_path := output
        data_profile := profileText content
        cleaning_plan := pstripS (env.llm 0)
        generated_code := extract_code (env.llm 1)
        error := none
        cleaned_csv_path := none
        feature_engineering_plan := "" }
      0 2 0 (by decide) (by decide)
  simp only [importedModules] at iE iD iRc iRes ⊢
  refine ⟨?_, ?_, ?_, ?_⟩
  · rw [List.count_cons_of_ne (by decide), List.count_cons_of_ne (by decide),
      List.count_cons_of_ne (by decide)]
    omega
  · rw [List.count_cons_of_ne (by decide), List.count_cons_of_ne (by decide),
      List.count_cons_of_ne (by decide)]
    omega
  · exact iRc
  · exact iRes

/-- C2 witness: the all-failing environment at the default configuration
realises the exhaustion scenario. -/
theorem C2_exhaustion_run_witness :
    envAllFail.fs "in.csv" = some "a,b\n1,2" ∧
    envAllFail.execBehaviour 0 = some (.exc "boom") ∧
    (build_and_invoke envAllFail importedModules { retry_count := 7 }
      "in.csv" "out.csv").trace.count NodeName.execute_code = 4 ∧
    (build_and_invoke envAllFail importedModules { retry_count := 7 }
      "in.csv" "out.csv").trace.count NodeName.debug = 3 ∧
    (build_and_invoke envAllFail importedModules { retry_count := 7 }
      "in.csv" "out.csv").proc.retry_count = 3 ∧
    (build_and_invoke envAllFail importedModules { retry_count := 7 }
      "in.csv" "out.csv").result.map (fun f => (f.error, f.cleaned_csv_path)) =
      .ok (some (PyExc.exc "boom").tracebackText, none) := by
  have h := C2_exhaustion_run envAllFail { retry_count := 7 } "in.csv" "out.csv"
    "a,b\n1,2" rfl (fun k => ⟨"boom", rfl⟩)
  exact ⟨rfl, rfl, h.1, h.2.1, h.2.2.1, h.2.2.2⟩

/-- C3: the UI override `agent_nodes.MAX_RETRIES = 1` (app.py line 252)
does not change the bound the router uses: `route_after_execute` compares
the live counter against graph.py's import-time copy of `MAX_RETRIES`
(still 3), so with the configured maximum 1 the router still grants a
second repair at counter 1, and an all-failing run performs 3 repairs and 4
executions instead of 1 and 2. -/
theorem C3_override_ineffective :
    (setNodesMaxRetries importedModules 1).nodes_MAX_RETRIES = 1 ∧
    route_after_execute (setNodesMaxRetries importedModules 1) 1
      (some "Traceback") = Route.debug ∧
    (build_and_invoke envAllFail (setNodesMaxRetries importedModules 1)
      { retry_count := 0 } "in.csv" "out.csv").trace.count NodeName.debug = 3 ∧
    (build_and_invoke envAllFail (setNodesMaxRetries importedModules 1)
      { retry_count := 0 } "in.csv" "out.csv").proc.retry_count = 3 := by
  refine ⟨rfl, by decide, by decide, by decide⟩

/-- C4: after any execution attempt that returns a result record, exactly
one of the error field and the artifact-path field is present: on success
the error is absent and the path is the destination path; on failure the
error is present and the path absent; never both, never neither. -/
theorem C4_result_exclusive (outcome : Option PyExc) (inp out : String)
    (r : ExecuteCode) (h : execute_code outcome inp out = .ok r) :
    ((r.error = none ∧ r.cleaned_csv_path = some out) ∨
      (∃ d, r.error = some d ∧ r.cleaned_csv_path = none)) ∧
    ¬ (r.error = none ∧ r.cleaned_csv_path = none) ∧
    ¬ (r.error ≠ none ∧ r.cleaned_csv_path ≠ none) := by
  cases outcome with
  | none =>
    simp only [execute_code, Except.ok.injEq] at h
    subst h
    refine ⟨Or.inl ⟨rfl, rfl⟩, ?_, ?_⟩ <;> simp
  | some e =>
    cases e with
    | exc msg =>
      simp only [execute_code, PyExc.derivesException, if_true, Except.ok.injEq] at h
      subst h
      refine ⟨Or.inr ⟨_, rfl, rfl⟩, ?_, ?_⟩ <;> simp
    | systemExit =>
      simp only [execute_code, PyExc.derivesException] at h
      exact absurd h (by simp)
    | keyboardInterrupt =>
      simp only [execute_code, PyExc.derivesException] at h
      exact absurd h (by simp)

/-- C4 witness: the success outcome at a concrete destination path. -/
theorem C4_result_exclusive_witness :
    execute_code none "in.csv" "out.csv" =
      .ok { error := none, cleaned_csv_path := some "out.csv" } ∧
    (((({ error := none, cleaned_csv_path := some "out.csv" } : ExecuteCode).error =
          none ∧
        ({ error := none, cleaned_csv_path := some "out.csv" } : ExecuteCode).cleaned_csv_path =
          some "out.csv") ∨
      (∃ d, ({ error := none, cleaned_csv_path := some "out.csv" } : ExecuteCode).error =
          some d ∧
        ({ error := none, cleaned_csv_path := some "out.csv" } : ExecuteCode).cleaned_csv_path =
          none)) ∧
    ¬ (({ error := none, cleaned_csv_path := some "out.csv" } : ExecuteCode).error = none ∧
        ({ error := none, cleaned_csv_path := some "out.csv" } : ExecuteCode).cleaned_csv_path = none) ∧
    ¬ (({ error := none, cleaned_csv_path := some "out.csv" } : ExecuteCode).error ≠ none ∧
        ({ error := none, cleaned_csv_path := some "out.csv" } : ExecuteCode).cleaned_csv_path ≠ none)) :=
  ⟨rfl, C4_result_exclusive none "in.csv" "out.csv" _ rfl⟩

/-- C5 counterexample: code wrapped twice in fences does not extract to the
same text as the bare code — the lazy group stops at the second opening
fence, so the twice-wrapped extraction is empty. -/
theorem C5_counterexample :
    extract_code (wrapFence (wrapFence "x")) ≠ extract_code "x" ∧
    extract_code (wrapFence (wrapFence "x")) = "" ∧
    extract_code "x" = "x" := by
  refine ⟨by decide, by decide, by decide⟩

/-- C5 (amended): the extractor is idempotent on every text, and
extraction undoes a *single* fence wrap for code free of the triple-backtick
delimiter; the twice-wrapped equation of the original claim fails (see the
counterexample). -/
theorem C5_amended_extractor (t c : String) (h : ¬ ticks3 <:+: c.data) :
    extract_code (extract_code t) = extract_code t ∧
    extract_code (wrapFence c) = extract_code c := by
  constructor
  · exact congrArg String.mk (extractL_idem t.data)
  · have hd : (wrapFence c).data =
        '`' :: '`' :: '`' :: 'p' :: 'y' :: 't' :: 'h' :: 'o' :: 'n' :: '\n' ::
          (c.data ++ '\n' :: ticks3) := by
      show ("```python\n" ++ c ++ "\n```").data = _
      rw [String.data_append, String.data_append]
      rfl
    show String.mk (extractL (wrapFence c).data) = String.mk (extractL c.data)
    rw [hd]
    exact congrArg String.mk (extractL_wrap_once h)

/-- C5 witness: idempotence and single-unwrap at concrete texts. -/
theorem C5_amended_extractor_witness :
    ¬ ticks3 <:+: "df.dropna()".data ∧
    extract_code (extract_code "```python\nabc\n```") =
      extract_code "```python\nabc\n```" ∧
    extract_code (wrapFence "df.dropna()") = extract_code "df.dropna()" := by
  have h := C5_amended_extractor "```python\nabc\n```" "df.dropna()" (by decide)
  exact ⟨by decide, h.1, h.2⟩

/-- C6 counterexample: a generated program consisting of a fresh module
load — a capability not among the three injected bindings — runs to
completion and the attempt reports success with the artifact path set,
because the host inserts the builtins (hence the `__import__` hook) into
the exec globals. -/
theorem C6_counterexample :
    execute_code_on [Stmt.importModule "os"] "in.csv" "out.csv" =
      .ok { error := none, cleaned_csv_path := some "out.csv" } := by
  decide

/-- C6 (amended): the evaluation context holds the injected bindings plus
the auto-inserted builtins, not the bindings alone; only code using a name
absent from both fails, with a `NameError` diagnostic rather than
succeeding. -/
theorem C6_amended_namespace (n inp out : String)
    (h : n ∉ execNamespaceNames) :
    execute_code_on [Stmt.useName n] inp out =
      .ok { error := some (PyExc.exc
              ("NameError: name " ++ n ++ " is not defined")).tracebackText
            cleaned_csv_path := none } := by
  unfold execute_code_on runProgram
  rw [if_neg h]
  rfl

/-- C6 witness: the unbound name `os` fails with a `NameError`. -/
theorem C6_amended_namespace_witness :
    "os" ∉ execNamespaceNames ∧
    execute_code_on [Stmt.useName "os"] "in.csv" "out.csv" =
      .ok { error := some (PyExc.exc
              ("NameError: name " ++ "os" ++ " is not defined")).tracebackText
            cleaned_csv_path := none } :=
  ⟨by decide, C6_amended_namespace "os" "in.csv" "out.csv" (by decide)⟩

/-- C7 counterexample: generated code can raise `SystemExit` — for
instance by calling the builtin `exit()`, which is reachable in the exec
namespace — and `except Exception:` does not catch it: the exception
propagates out of the executor to its caller instead of becoming a
`Failure`. -/
theorem C7_counterexample :
    execute_code_on [Stmt.raiseExc PyExc.systemExit] "in.csv" "out.csv" =
      .error PyExc.systemExit := by
  decide

/-- C7 (amended): every exception deriving from Python's `Exception` class
is caught at the executor boundary and converted into a failure result
carrying the full diagnostic trace with no artifact path; exceptions
deriving only from `BaseException` (`SystemExit`, `KeyboardInterrupt`)
propagate. -/
theorem C7_amended_exception_boundary (e : PyExc) (inp out : String)
    (h : e.derivesException = true) :
    execute_code (some e) inp out =
      .ok { error := some e.tracebackText, cleaned_csv_path := none } := by
  simp only [execute_code, h, if_true]

/-- C7 witness: a division-by-zero exception is caught and converted. -/
theorem C7_amended_exception_boundary_witness :
    (PyExc.exc "ZeroDivisionError: division by zero").derivesException = true ∧
    execute_code (some (PyExc.exc "ZeroDivisionError: division by zero"))
        "in.csv" "out.csv" =
      .ok { error := some (PyExc.exc
              "ZeroDivisionError: division by zero").tracebackText
            cleaned_csv_path := none } :=
  ⟨rfl, C7_amended_exception_boundary _ "in.csv" "out.csv" rfl⟩

/-- C8 counterexample: with the retry maximum configured to 1 through the
UI override, an all-failing run drives the module-global retry counter to
3 — past the configured maximum — because the router bounds it by its
copy taken at import time instead. -/
theorem C8_counterexample :
    (build_and_invoke envAllFail (setNodesMaxRetries importedModules 1)
      { retry_count := 0 } "in.csv" "out.csv").proc.retry_count >
      (setNodesMaxRetries importedModules 1).nodes_MAX_RETRIES := by
  decide

/-- C8 (amended): the retry counter is reset at the start of every run —
the second of two runs in one process is independent of the first run's
final counter, whatever its outcome — and within a run the counter never
exceeds the router's import-time bound `graph_MAX_RETRIES` (3 by default);
an override of the `nodes` attribute does not lower that bound. -/
theorem C8_amended_reset_and_bound (env env2 : Env) (m : Modules)
    (p : ProcState) (input output input2 output2 : String) :
    build_and_invoke env2 m (build_and_invoke env m p input output).proc
        input2 output2 =
      build_and_invoke env2 m { retry_count := 0 } input2 output2 ∧
    (build_and_invoke env m p input output).proc.retry_count ≤
      m.graph_MAX_RETRIES := by
  constructor
  · rfl
  · cases hfs : env.fs input with
    | none =>
      rw [build_and_invoke_nofile hfs]
      exact Nat.zero_le _
    | some content =>
      rw [build_and_invoke_unfold _ hfs rfl]
      obtain ⟨-, -, iUb, -, -⟩ :=
        execLoop_bounds env m (m.graph_MAX_RETRIES + 1)
          { raw_csv_path := input
            output_csv_path := output
            data_profile := profileText content
            cleaning_plan := pstripS (env.llm 0)
            generated_code := extract_code (env.llm 1)
            error := none
            cleaned_csv_path := none
            feature_engineering_plan := "" }
          0 2 0 (by omega) (by omega)
      exact iUb

/-- C9 counterexample: for the oracle response consisting of an empty
fenced code block, code generation stores an *empty* `generated_code`. -/
theorem C9_counterexample :
    (generate_code "```python\n```").generated_code = "" := by
  decide

/-- C9 (amended): once code generation has run, `generated_code` is
exactly the extractor's output on the latest oracle response (from
generation or from any repair); it is non-empty whenever the response is
fence-free and contains a non-whitespace character, but an empty fenced
block yields an empty field, so the unconditional non-emptiness invariant
does not hold. -/
theorem C9_amended_generated_code (response : String) (rc : Nat) :
    (generate_code response).generated_code = extract_code response ∧
    (debug_code rc response).2.generated_code = extract_code response ∧
    (¬ ticks3 <:+: response.data →
      (∃ x ∈ response.data, isSpace x = false) →
      (generate_code response).generated_code ≠ "") := by
  refine ⟨rfl, rfl, ?_⟩
  intro hnt hx h0
  obtain ⟨x, hmem, hsp⟩ := hx
  have hdata : extractL response.data = pstrip response.data := by
    rw [extractL, fenceSearch_none_of_no_ticks hnt, subFences_of_no_ticks hnt]
  have h1 : pstrip response.data = [] := by
    have h2 := congrArg String.data h0
    rw [← hdata]
    exact h2
  exact pstrip_ne_nil hmem hsp h1

/-- C9 witness: a plain code response yields a non-empty field. -/
theorem C9_amended_generated_code_witness :
    ('d' ∈ "df = df.dropna()".data ∧ isSpace 'd' = false) ∧
    ¬ ticks3 <:+: "df = df.dropna()".data ∧
    (generate_code "df = df.dropna()").generated_code =
      extract_code "df = df.dropna()" ∧
    (debug_code 0 "df = df.dropna()").2.generated_code =
      extract_code "df = df.dropna()" ∧
    (generate_code "df = df.dropna()").generated_code ≠ "" := by
  have h := C9_amended_generated_code "df = df.dropna()" 0
  exact ⟨⟨by decide, by decide⟩, by decide, h.1, h.2.1,
    h.2.2 (by decide) ⟨'d', by decide, by decide⟩⟩

/-- C10: when an execution attempt reports success but no file exists at
the artifact path, the feature stage's `pd.read_csv` raises, no stage or
router catches it, and the run aborts inside the feature stage: the result
is a propagated `FileNotFoundError`, the trace ends at the feature stage
with no repair routing, and the oracle was not called by the feature stage
(only the plan and generate calls happened). -/
theorem C10_ghost_artifact (env : Env) (m : Modules) (p : ProcState)
    (input output content : String)
    (hsrc : env.fs input = some content)
    (hfirst : env.execBehaviour 0 = none)
    (hmiss : env.fs output = none) :
    (build_and_invoke env m p input output).result =
      .error (.exc ("FileNotFoundError: " ++ output)) ∧
    (build_and_invoke env m p input output).trace =
      [.inspect, .plan, .generate_code, .execute_code, .feature_eng] ∧
    (build_and_invoke env m p input output).llmCalls = 2 := by
  rw [build_and_invoke_unfold _ hsrc rfl]
  have hexec : execute_code (env.execBehaviour 0) input output =
      .ok { error := none, cleaned_csv_path := some output } := by
    rw [hfirst]
    rfl
  have hroute : route_after_execute m 0
      (({ error := none, cleaned_csv_path := some output } : ExecuteCode)).error =
      .feature_eng := by
    rfl
  have hfe : feature_engineering_plan env.fs
      { cleaned_csv_path := some output } (env.llm 2) =
      .error (.exc ("FileNotFoundError: " ++ output)) := by
    unfold feature_engineering_plan feature_read
    simp only [hmiss]
  rw [execLoop_step_feature_err m.graph_MAX_RETRIES hexec hroute hfe]
  exact ⟨rfl, rfl, rfl⟩

/-- C10 witness: the ghost-artifact environment realises the abort. -/
theorem C10_ghost_artifact_witness :
    envGhost.fs "in.csv" = some "a,b\n1,2" ∧
    envGhost.execBehaviour 0 = none ∧
    envGhost.fs "out.csv" = none ∧
    (build_and_invoke envGhost importedModules { retry_count := 0 }
      "in.csv" "out.csv").result =
      .error (.exc ("FileNotFoundError: " ++ "out.csv")) ∧
    (build_and_invoke envGhost importedModules { retry_count := 0 }
      "in.csv" "out.csv").trace =
      [.inspect, .plan, .generate_code, .execute_code, .feature_eng] ∧
    (build_and_invoke envGhost importedModules { retry_count := 0 }
      "in.csv" "out.csv").llmCalls = 2 := by
  have h := C10_ghost_artifact envGhost importedModules { retry_count := 0 }
    "in.csv" "out.csv" "a,b\n1,2" (by decide) rfl (by decide)
  exact ⟨by decide, rfl, by decide, h.1, h.2.1, h.2.2⟩

end DCA
